import Mathlib

/-!
# Clock-reading experiment server (`server.js`)

A shallow embedding of the two request handlers of `server.js`
(`POST /api/save-experiment`, `GET /api/statistics`) together with the three
relations created by `createTables`, followed by theorems about them.

Modelling conventions
* A relation is the list of its rows in insertion order; a nullable column is an
  `Option` (`none` is SQL `NULL`).
* `REAL` values and JSON numbers are exact rationals.
* `created_at` columns (filled by the store from its own clock) are left out.
* A call of `db.sql` either is applied to the store and resolves, or rejects with
  an error message and leaves the store as it was; which of the two happens is
  given by a `Faults` argument.
* The trial inserts of one request are applied in the order in which
  `experimentData.map` issues them.
* A bound value that is `undefined` reaches the store as `NULL`.
* A write resolves with the driver's result object, which has the properties
  `lastID`, `changes`, `totalChanges` and `finalized` (the last two are left
  out) and no property `lastInsertRowid`.
-/

namespace ClockServer

/-! ## Request payload (`req.body`) -/

/-- One entry of `experimentData`, with the fields the handler reads. -/
structure TrialRecord where
  trial : Int
  clockType : String
  showNumbers : Bool
  actualTime : String
  userInput : String
  correct : Bool
  reactionTime : Int
  typingTime : Int
  timestamp : String
deriving DecidableEq

/-- The `summary` object, with the fields the handler reads. -/
structure ExperimentSummary where
  clockTypeSelection : String
  showNumbers : Bool
  totalTrials : Int
  overallAccuracy : ℚ
  avgReactionTime : ℚ
  digitalAvgReaction : ℚ
  analogAvgReaction : ℚ
  digitalAccuracy : ℚ
  analogAccuracy : ℚ
deriving DecidableEq

/-- The destructured body `{ username, experimentData, summary }`; `none` is a
property that is absent (`undefined`). -/
structure RequestBody where
  username : Option String
  experimentData : Option (List TrialRecord)
  summary : Option ExperimentSummary
deriving DecidableEq

/-! ## Relations (`createTables`) -/

/-- A row of `users`: `id INTEGER PRIMARY KEY AUTOINCREMENT, username TEXT UNIQUE`. -/
structure UserRow where
  id : Nat
  username : Option String
deriving DecidableEq

/-- The ten columns of `experiments` that the insert statement binds. -/
structure ExperimentCols where
  username : Option String
  clock_type_selection : Option String
  show_numbers : Option Int
  total_trials : Option Int
  overall_accuracy : Option ℚ
  avg_reaction_time : Option ℚ
  digital_avg_reaction : Option ℚ
  analog_avg_reaction : Option ℚ
  digital_accuracy : Option ℚ
  analog_accuracy : Option ℚ
deriving DecidableEq

/-- A row of `experiments`: the generated `id` and the bound columns. -/
structure ExperimentRow extends ExperimentCols where
  id : Nat
deriving DecidableEq

/-- The ten columns of `trials` that the insert statement binds. -/
structure TrialCols where
  experiment_id : Option Nat
  trial_number : Option Int
  clock_type : Option String
  show_numbers : Option Int
  actual_time : Option String
  user_input : Option String
  correct : Option Int
  reaction_time : Option Int
  typing_time : Option Int
  timestamp : Option String
deriving DecidableEq

/-- A row of `trials`: the generated `id` and the bound columns. -/
structure TrialRow extends TrialCols where
  id : Nat
deriving DecidableEq

/-- The three relations and, for each, the `sqlite_sequence` counter that
`AUTOINCREMENT` maintains (the largest rowid handed out so far). -/
structure Store where
  users : List UserRow
  experiments : List ExperimentRow
  trials : List TrialRow
  seq_users : Nat
  seq_experiments : Nat
  seq_trials : Nat
deriving DecidableEq

/-- The store right after `createTables` on a fresh database. -/
def Store.empty : Store := ⟨[], [], [], 0, 0, 0⟩

/-- The rowid `AUTOINCREMENT` generates: one more than the largest of the
sequence counter and the rowids present in the table. -/
def nextRowid (seq : Nat) (ids : List Nat) : Nat :=
  max seq (ids.foldr max 0) + 1

/-! ## Statements issued through `db.sql` -/

/-- The three parameterised statements of the save handler with their bound values. -/
inductive Stmt where
  | insertOrIgnoreUser (username : Option String)
  | insertExperiment (cols : ExperimentCols)
  | insertTrial (cols : TrialCols)
deriving DecidableEq

/-- `INSERT OR IGNORE INTO users (username) VALUES (?)`. The `UNIQUE` constraint
on `username` rejects a value equal to one already present, and the row is then
ignored; `NULL` is never equal to anything, so a `NULL` username always inserts.
The rowid is generated, and the sequence counter advanced, before the constraint
is checked, so an ignored insert uses up a rowid too. Returns the rowid of the
inserted row, `none` when the row was ignored. -/
def insertOrIgnoreUser (s : Store) (username : Option String) : Store × Option Nat :=
  match username with
  | some u =>
    if s.users.any (fun r => r.username == some u) then
      ({ s with seq_users := nextRowid s.seq_users (s.users.map (·.id)) }, Option.none)
    else
      let id := nextRowid s.seq_users (s.users.map (·.id))
      ({ s with users := s.users ++ [⟨id, some u⟩], seq_users := id }, some id)
  | none =>
    let id := nextRowid s.seq_users (s.users.map (·.id))
    ({ s with users := s.users ++ [⟨id, none⟩], seq_users := id }, some id)

/-- `INSERT INTO experiments (...) VALUES (?, ..., ?)`; returns the generated id. -/
def insertExperiment (s : Store) (cols : ExperimentCols) : Store × Option Nat :=
  let id := nextRowid s.seq_experiments (s.experiments.map (·.id))
  ({ s with experiments := s.experiments ++ [{ toExperimentCols := cols, id := id }],
            seq_experiments := id }, some id)

/-- `INSERT INTO trials (...) VALUES (?, ..., ?)`; returns the generated id. The
foreign key on `experiment_id` is not checked (SQLite leaves foreign keys
unenforced unless the connection switches them on, which `server.js` never does). -/
def insertTrial (s : Store) (cols : TrialCols) : Store × Option Nat :=
  let id := nextRowid s.seq_trials (s.trials.map (·.id))
  ({ s with trials := s.trials ++ [{ toTrialCols := cols, id := id }],
            seq_trials := id }, some id)

/-- Apply one statement to the store; the second component is the rowid of the
row it inserted, if it inserted one. -/
def execStmt (s : Store) : Stmt → Store × Option Nat
  | .insertOrIgnoreUser username => insertOrIgnoreUser s username
  | .insertExperiment cols => insertExperiment s cols
  | .insertTrial cols => insertTrial s cols

/-- The object a write through `db.sql` resolves with: `lastID` (the rowid of the
connection's most recent successful insert) and `changes` (rows written by this
statement). -/
structure RunResult where
  lastID : Nat
  changes : Nat
deriving DecidableEq

/-- The expression `result.lastInsertRowid` (line 136): the result object has no
property of that name, so the expression is `undefined`. -/
def RunResult.lastInsertRowid (_ : RunResult) : Option Nat := Option.none

/-- The process-wide handle `db`: the store behind it, the statements issued
through it so far (most recent last), and the rowid of the connection's most
recent successful insert. -/
structure Db where
  store : Store
  issued : List Stmt
  last_insert_rowid : Nat
deriving DecidableEq

/-- The handle right after start-up on a fresh database. -/
def Db.empty : Db := ⟨Store.empty, [], 0⟩

/-- One `await db.sql(stmt, ...)`. With `fault = some msg` the promise rejects with
an error whose `message` is `msg` and the store is untouched; otherwise the
statement is applied and the promise resolves with the result object. -/
def dbSql (db : Db) (fault : Option String) (stmt : Stmt) : Db × Except String RunResult :=
  match fault with
  | some msg => (⟨db.store, db.issued ++ [stmt], db.last_insert_rowid⟩, .error msg)
  | none =>
    let r := execStmt db.store stmt
    (⟨r.1, db.issued ++ [stmt], r.2.getD db.last_insert_rowid⟩,
      .ok ⟨r.2.getD db.last_insert_rowid, if r.2.isSome then 1 else 0⟩)

/-! ## `POST /api/save-experiment` -/

/-- Which store calls of one request reject, and with which error message:
the user upsert, the experiment insert, and the trial insert at each position
of `experimentData`. -/
structure Faults where
  userUpsert : Option String
  experimentInsert : Option String
  trialInsert : Nat → Option String

/-- No store call rejects. -/
def Faults.none : Faults := ⟨Option.none, Option.none, fun _ => Option.none⟩

/-- A JSON response body of the save handler. In `saved`, an `experimentId` that is
`none` is an `undefined` value, a property that `res.json` leaves out of the body. -/
inductive SaveBody where
  | error (error : String)
  | saved (success : Bool) (experimentId : Option Nat)
deriving DecidableEq

/-- The result of `res.status(status).json(body)`. -/
structure Response where
  status : Nat
  body : SaveBody
deriving DecidableEq

/-- What one run of the save handler leaves behind: the handle, the response
sent, and the lines written with `console.error`. -/
structure Outcome where
  db : Db
  response : Response
  console : List String
deriving DecidableEq

/-- The expression `username || 'Anonymous'`: `undefined` and the empty string are
falsy. -/
def usernameOrAnonymous : Option String → String
  | some u => if u = "" then "Anonymous" else u
  | Option.none => "Anonymous"

/-- The expression `b ? 1 : 0`. -/
def boolToInt (b : Bool) : Int := if b then 1 else 0

/-- The values bound by the experiment insert (lines 124-133). -/
def experimentCols (username : Option String) (summary : ExperimentSummary) : ExperimentCols where
  username := some (usernameOrAnonymous username)
  clock_type_selection := some summary.clockTypeSelection
  show_numbers := some (boolToInt summary.showNumbers)
  total_trials := some summary.totalTrials
  overall_accuracy := some summary.overallAccuracy
  avg_reaction_time := some summary.avgReactionTime
  digital_avg_reaction := some summary.digitalAvgReaction
  analog_avg_reaction := some summary.analogAvgReaction
  digital_accuracy := some summary.digitalAccuracy
  analog_accuracy := some summary.analogAccuracy

/-- The values bound by one trial insert (lines 144-153); an `experimentId` that is
`undefined` is bound as `NULL`. -/
def trialCols (experimentId : Option Nat) (trial : TrialRecord) : TrialCols where
  experiment_id := experimentId
  trial_number := some trial.trial
  clock_type := some trial.clockType
  show_numbers := some (boolToInt trial.showNumbers)
  actual_time := some trial.actualTime
  user_input := some trial.userInput
  correct := some (boolToInt trial.correct)
  reaction_time := some trial.reactionTime
  typing_time := some trial.typingTime
  timestamp := some trial.timestamp

/-- The call `experimentData.map(trial => db.sql(...))`: every trial insert is
issued, whether or not an earlier one rejects; `i` is the position of the head
of the remaining list. Returns the handle afterwards and the settled promises. -/
def issueTrialInserts (experimentId : Option Nat) (fault : Nat → Option String) :
    Db → Nat → List TrialRecord → Db × List (Except String RunResult)
  | db, _, [] => (db, [])
  | db, i, trial :: rest =>
    let r := dbSql db (fault i) (.insertTrial (trialCols experimentId trial))
    let rs := issueTrialInserts experimentId fault r.1 (i + 1) rest
    (rs.1, r.2 :: rs.2)

/-- The call `Promise.all(promises)`: rejects with the first rejection, otherwise
resolves with all values. -/
def promiseAll : List (Except String RunResult) → Except String (List RunResult)
  | [] => .ok []
  | .error msg :: _ => .error msg
  | .ok v :: rest =>
    match promiseAll rest with
    | .error msg => .error msg
    | .ok vs => .ok (v :: vs)

/-- The response of the validation guard (line 111). -/
def badRequest : Response := ⟨400, .error "Missing experimentData or summary"⟩

/-- The response of the `catch` block (line 164). -/
def saveFailed : Response := ⟨500, .error "Failed to save experiment data"⟩

/-- The `catch` block (lines 162-165): log the message, answer 500. -/
def catchSave (db : Db) (msg : String) : Outcome :=
  ⟨db, saveFailed, ["[DB ERROR] Error saving experiment: " ++ msg]⟩

/-- The handler of `POST /api/save-experiment` (lines 107-166). -/
def saveExperiment (db : Db) (body : RequestBody) (f : Faults) : Outcome :=
  match body.experimentData, body.summary with
  | some experimentData, some summary =>
    match dbSql db f.userUpsert (.insertOrIgnoreUser body.username) with
    | (db1, .error msg) => catchSave db1 msg
    | (db1, .ok _) =>
      match dbSql db1 f.experimentInsert
          (.insertExperiment (experimentCols body.username summary)) with
      | (db2, .error msg) => catchSave db2 msg
      | (db2, .ok result) =>
        let experimentId := result.lastInsertRowid
        let r := issueTrialInserts experimentId f.trialInsert db2 0 experimentData
        match promiseAll r.2 with
        | .error msg => catchSave r.1 msg
        | .ok _ => ⟨r.1, ⟨201, .saved true experimentId⟩, []⟩
  | _, _ => ⟨db, badRequest, []⟩

/-- The handles that a sequence of save requests can produce from the fresh one. -/
inductive Reachable : Db → Prop where
  | start : Reachable Db.empty
  | post (db : Db) (body : RequestBody) (f : Faults) :
      Reachable db → Reachable (saveExperiment db body f).db

/-! ## `GET /api/statistics` -/

/-- The accumulator of the aggregate `AVG`: running sum and number of non-`NULL`
values seen. -/
structure AvgCtx where
  rSum : ℚ
  cnt : Nat
deriving DecidableEq

/-- One step of `AVG`: a `NULL` value is skipped. -/
def avgStep (p : AvgCtx) : Option ℚ → AvgCtx
  | some v => ⟨p.rSum + v, p.cnt + 1⟩
  | none => p

/-- The final value of `AVG`: `NULL` when no non-`NULL` value was seen. -/
def avgFinalize (p : AvgCtx) : Option ℚ :=
  if p.cnt > 0 then some (p.rSum / p.cnt) else none

/-- The aggregate `AVG(col)` over the column values of the selected rows. -/
def sqlAvg (vals : List (Option ℚ)) : Option ℚ :=
  avgFinalize (vals.foldl avgStep ⟨0, 0⟩)

/-- The condition `col > 0` in a `WHERE` clause: a `NULL` compares as unknown and
the row is not selected. -/
def sqlGtZero : Option ℚ → Bool
  | some v => decide (0 < v)
  | none => false

/-- The condition `col = 'text'` in a `WHERE` clause (binary collation): a `NULL`
compares as unknown and the row is not selected. -/
def sqlEqText : Option String → String → Bool
  | some v, t => v == t
  | none, _ => false

/-- The single row of the first query (lines 172-176). -/
structure OverallRow where
  total_experiments : Nat
  avg_accuracy : Option ℚ
  avg_reaction_time : Option ℚ
deriving DecidableEq

/-- A row of the second query (lines 180-184). -/
structure ClockRow where
  clock_type : String
  avg_reaction : Option ℚ
  avg_accuracy : Option ℚ
deriving DecidableEq

/-- A row of the third query (lines 188-191). -/
structure NumbersRow where
  show_numbers : Option Int
  avg_reaction : Option ℚ
  avg_accuracy : Option ℚ
deriving DecidableEq

/-- The query `SELECT COUNT(*), AVG(overall_accuracy), AVG(avg_reaction_time) FROM
experiments`: an aggregate query without `GROUP BY` yields one row. -/
def overallQuery (s : Store) : List OverallRow :=
  [⟨s.experiments.length,
    sqlAvg (s.experiments.map (·.overall_accuracy)),
    sqlAvg (s.experiments.map (·.avg_reaction_time))⟩]

/-- One arm of the `UNION ALL`: an aggregate query without `GROUP BY`, one row. -/
def digitalArm (s : Store) : List ClockRow :=
  let rows := s.experiments.filter (fun r => sqlGtZero r.digital_avg_reaction)
  [⟨"digital", sqlAvg (rows.map (·.digital_avg_reaction)),
    sqlAvg (rows.map (·.digital_accuracy))⟩]

/-- The other arm of the `UNION ALL`. -/
def analogArm (s : Store) : List ClockRow :=
  let rows := s.experiments.filter (fun r => sqlGtZero r.analog_avg_reaction)
  [⟨"analog", sqlAvg (rows.map (·.analog_avg_reaction)),
    sqlAvg (rows.map (·.analog_accuracy))⟩]

/-- The second query (lines 180-184): the rows of the first arm, then those of
the second. -/
def clockComparisonQuery (s : Store) : List ClockRow :=
  digitalArm s ++ analogArm s

/-- The order in which `GROUP BY show_numbers` emits its groups: ascending, `NULL`
first. -/
def keyLe : Option Int → Option Int → Bool
  | none, _ => true
  | some _, none => false
  | some a, some b => decide (a ≤ b)

/-- The distinct values of `show_numbers` among the rows, in output order. -/
def groupKeys (rows : List ExperimentRow) : List (Option Int) :=
  ((rows.map (·.show_numbers)).dedup).insertionSort (fun a b => keyLe a b = true)

/-- The `WHERE` clause of the third query (line 190). -/
def numbersEffectWhere (r : ExperimentRow) : Bool :=
  sqlGtZero r.analog_avg_reaction &&
    (sqlEqText r.clock_type_selection "analog" || sqlEqText r.clock_type_selection "mixed")

/-- The third query (lines 188-191): one output row per group (`NULL` values of
the grouping column form one group). -/
def numbersEffectQuery (s : Store) : List NumbersRow :=
  let rows := s.experiments.filter numbersEffectWhere
  (groupKeys rows).map (fun k =>
    let g := rows.filter (fun r => r.show_numbers == k)
    ⟨k, sqlAvg (g.map (·.analog_avg_reaction)), sqlAvg (g.map (·.analog_accuracy))⟩)

/-- Which of the three queries of one statistics request reject, and with which
error message. -/
structure StatFaults where
  overall : Option String
  clockComparison : Option String
  numbersEffect : Option String

/-- No query rejects. -/
def StatFaults.none : StatFaults := ⟨Option.none, Option.none, Option.none⟩

/-- A JSON response body of the statistics handler. `overall` is the first element
of the first query's result (`const [overall] = ...`), `undefined` if there is none. -/
inductive StatsBody where
  | error (error : String)
  | stats (overall : Option OverallRow) (clockComparison : List ClockRow)
      (numbersEffect : List NumbersRow)
deriving DecidableEq

/-- The response of the statistics handler: status and body. -/
structure StatsResponse where
  status : Nat
  body : StatsBody
deriving DecidableEq

/-- The response of the `catch` block (line 201). -/
def statsFailed : StatsResponse := ⟨500, .error "Failed to fetch statistics"⟩

/-- The handler of `GET /api/statistics` (lines 169-203); it only reads. -/
def getStatistics (s : Store) (f : StatFaults) : StatsResponse :=
  match f.overall with
  | some _ => statsFailed
  | Option.none =>
    let overall := (overallQuery s).head?
    match f.clockComparison with
    | some _ => statsFailed
    | Option.none =>
      let clockComparison := clockComparisonQuery s
      match f.numbersEffect with
      | some _ => statsFailed
      | Option.none => ⟨200, .stats overall clockComparison (numbersEffectQuery s)⟩

/-! ## Reference notions used in the statements -/

/-- The arithmetic mean of a list of numbers; undefined (`none`) for the empty list. -/
def mean (xs : List ℚ) : Option ℚ :=
  if xs.length = 0 then Option.none else some (xs.sum / xs.length)

/-- The trial rows that the inserts at the non-rejecting positions bind, in order;
`i` is the position of the head of `trials`. -/
def acceptedCols (experimentId : Option Nat) (fault : Nat → Option String) (i : Nat)
    (trials : List TrialRecord) : List TrialCols :=
  ((trials.enumFrom i).filter (fun p => (fault p.1).isNone)).map
    (fun p => trialCols experimentId p.2)

/-- Whether some store call of a request with `k` trial records rejects: the user
upsert, the experiment insert, or the trial insert at a position below `k`. -/
def anyCallFails (f : Faults) (k : Nat) : Bool :=
  f.userUpsert.isSome || f.experimentInsert.isSome ||
    (List.range k).any (fun j => (f.trialInsert j).isSome)

/-- A request made of a username, a summary and a list of trial records, all
present. -/
def wellFormed (username : Option String) (trials : List TrialRecord)
    (summary : ExperimentSummary) : RequestBody :=
  ⟨username, some trials, some summary⟩

/-! ## Sample requests and stores used in the closed statements -/

/-- A summary of an analog-only run with numbers shown. -/
def analogShown : ExperimentSummary :=
  ⟨"analog", true, 2, 1 / 2, 600, 0, 600, 0, 4 / 5⟩

/-- A summary of an analog-only run with numbers hidden. -/
def analogHidden : ExperimentSummary :=
  ⟨"analog", false, 2, 1, 700, 0, 700, 0, 1⟩

/-- A summary of a digital-only run. -/
def digitalOnly : ExperimentSummary :=
  ⟨"digital", false, 2, 9 / 10, 500, 500, 0, 9 / 10, 0⟩

/-- First sample trial record. -/
def trialA : TrialRecord :=
  ⟨1, "analog", true, "03:15", "03:15", true, 1200, 800, "2024-01-01T10:00:00Z"⟩

/-- Second sample trial record. -/
def trialB : TrialRecord :=
  ⟨2, "analog", true, "07:40", "07:45", false, 1500, 900, "2024-01-01T10:00:05Z"⟩

/-- A store behaviour in which only the trial insert at position 1 rejects. -/
def secondTrialFails : Faults :=
  ⟨Option.none, Option.none, fun j => if j = 1 then some "SQLITE_BUSY" else Option.none⟩

/-- A request without a `username` property. -/
def absentUsername : RequestBody := wellFormed Option.none [trialA] analogShown

/-- A request whose `username` is the empty string. -/
def emptyUsername : RequestBody := wellFormed (some "") [trialA] analogShown

/-- The handle after two saves on the fresh store: a digital-only run (digital
reaction 500, accuracy 0.9, analog reaction 0) and an analog-only run (digital
reaction 0, analog reaction 600, accuracy 0.8). -/
def comparisonScenario : Db :=
  (saveExperiment (saveExperiment Db.empty (wellFormed (some "ann") [trialA] digitalOnly)
    Faults.none).db (wellFormed (some "bob") [trialA, trialB] analogShown) Faults.none).db

/-- The handle after two saves on the fresh store, both analog-only with a
positive analog reaction time, the first with numbers shown, the second without. -/
def numbersScenario : Db :=
  (saveExperiment (saveExperiment Db.empty (wellFormed (some "ann") [trialA] analogShown)
    Faults.none).db (wellFormed (some "bob") [trialA, trialB] analogHidden) Faults.none).db

/-- A request whose `experimentData` is absent while its summary is present. -/
def missingExperimentData : RequestBody := ⟨some "ann", Option.none, some analogShown⟩

/-! ## Auxiliary facts about the store calls -/

section StoreFacts

theorem foldr_max_ge (ids : List Nat) : ∀ i ∈ ids, i ≤ ids.foldr max 0 := by
  induction ids with
  | nil => intro i hi; cases hi
  | cons a rest ih =>
    intro i hi
    rcases List.mem_cons.mp hi with h | h
    · subst h; exact le_max_left _ _
    · exact le_trans (ih i h) (le_max_right _ _)

theorem nextRowid_fresh (seq : Nat) (ids : List Nat) : nextRowid seq ids ∉ ids := by
  intro h
  have h1 := foldr_max_ge ids _ h
  have h2 : ids.foldr max 0 ≤ max seq (ids.foldr max 0) := le_max_right _ _
  unfold nextRowid at h1
  omega

theorem promiseAll_ok_of_all_ok (rs : List (Except String RunResult))
    (h : ∀ r ∈ rs, ∃ v, r = .ok v) : ∃ vs, promiseAll rs = .ok vs := by
  induction rs with
  | nil => exact ⟨[], rfl⟩
  | cons r rest ih =>
    obtain ⟨v, rfl⟩ := h r (List.mem_cons_self _ _)
    obtain ⟨vs, hvs⟩ := ih (fun r hr => h r (List.mem_cons_of_mem _ hr))
    exact ⟨v :: vs, by simp [promiseAll, hvs]⟩

theorem promiseAll_error_of_mem (rs : List (Except String RunResult)) (msg : String)
    (h : Except.error msg ∈ rs) : ∃ m, promiseAll rs = .error m := by
  induction rs with
  | nil => cases h
  | cons r rest ih =>
    cases r with
    | error m => exact ⟨m, rfl⟩
    | ok v =>
      have h1 : Except.error msg ∈ rest := by
        rcases List.mem_cons.mp h with h | h
        · cases h
        · exact h
      obtain ⟨m, hm⟩ := ih h1
      exact ⟨m, by simp [promiseAll, hm]⟩

/-- A rejected call leaves the store as it was and records the statement. -/
theorem dbSql_rejected (db : Db) (msg : String) (stmt : Stmt) :
    (dbSql db (some msg) stmt).1.store = db.store ∧
    (dbSql db (some msg) stmt).1.issued = db.issued ++ [stmt] ∧
    (dbSql db (some msg) stmt).2 = .error msg := by
  simp [dbSql]

/-- An accepted call applies the statement, records it and resolves. -/
theorem dbSql_resolved (db : Db) (stmt : Stmt) :
    (dbSql db Option.none stmt).1.store = (execStmt db.store stmt).1 ∧
    (dbSql db Option.none stmt).1.issued = db.issued ++ [stmt] ∧
    ∃ r, (dbSql db Option.none stmt).2 = .ok r := by
  simp [dbSql]

theorem issueTrialInserts_spec (eid : Option Nat) (fault : Nat → Option String)
    (trials : List TrialRecord) : ∀ (db : Db) (i : Nat),
    ∃ newRows : List TrialRow,
      (issueTrialInserts eid fault db i trials).1.store.trials = db.store.trials ++ newRows ∧
      newRows.map (·.toTrialCols) = acceptedCols eid fault i trials ∧
      (issueTrialInserts eid fault db i trials).1.store.users = db.store.users ∧
      (issueTrialInserts eid fault db i trials).1.store.experiments = db.store.experiments ∧
      (issueTrialInserts eid fault db i trials).1.issued =
        db.issued ++ trials.map (fun t => Stmt.insertTrial (trialCols eid t)) ∧
      ((∀ j, j < trials.length → fault (i + j) = Option.none) →
        ∀ r ∈ (issueTrialInserts eid fault db i trials).2, ∃ v, r = Except.ok v) ∧
      (∀ j, j < trials.length → ∀ msg, fault (i + j) = some msg →
        Except.error msg ∈ (issueTrialInserts eid fault db i trials).2) := by
  induction trials with
  | nil =>
    intro db i
    exact ⟨[], by simp [issueTrialInserts, acceptedCols]⟩
  | cons t rest ih =>
    intro db i
    cases hf : fault i with
    | some msg =>
      obtain ⟨s1, s2, s3⟩ := dbSql_rejected db msg (Stmt.insertTrial (trialCols eid t))
      obtain ⟨rows, h1, h2, h3, h4, h5, h6, h7⟩ :=
        ih (dbSql db (some msg) (Stmt.insertTrial (trialCols eid t))).1 (i + 1)
      rw [s1] at h1 h3 h4
      rw [s2] at h5
      refine ⟨rows, ?_, ?_, ?_, ?_, ?_, ?_, ?_⟩
      · simpa only [issueTrialInserts, hf] using h1
      · simpa [acceptedCols, List.enumFrom, hf] using h2
      · simpa only [issueTrialInserts, hf] using h3
      · simpa only [issueTrialInserts, hf] using h4
      · simpa [issueTrialInserts, hf] using h5
      · intro hall
        have := hall 0 (by simp)
        simp [hf] at this
      · intro j hj m hm
        simp only [issueTrialInserts, hf]
        cases j with
        | zero =>
          simp only [Nat.add_zero, hf, Option.some.injEq] at hm
          subst hm
          rw [s3]
          exact List.mem_cons_self _ _
        | succ k =>
          refine List.mem_cons_of_mem _ ?_
          have hk : k < rest.length := by simpa using hj
          have hm2 : fault (i + 1 + k) = some m := by
            rw [← hm]; congr 1; omega
          exact h7 k hk m hm2
    | none =>
      obtain ⟨s1, s2, r0, s3⟩ := dbSql_resolved db (Stmt.insertTrial (trialCols eid t))
      obtain ⟨rows, h1, h2, h3, h4, h5, h6, h7⟩ :=
        ih (dbSql db Option.none (Stmt.insertTrial (trialCols eid t))).1 (i + 1)
      rw [s1] at h1 h3 h4
      rw [s2] at h5
      refine ⟨⟨trialCols eid t, nextRowid db.store.seq_trials (db.store.trials.map (·.id))⟩
        :: rows, ?_, ?_, ?_, ?_, ?_, ?_, ?_⟩
      · simpa [issueTrialInserts, hf, execStmt, insertTrial] using h1
      · simpa [acceptedCols, List.enumFrom, hf] using h2
      · simpa [issueTrialInserts, hf, execStmt, insertTrial] using h3
      · simpa [issueTrialInserts, hf, execStmt, insertTrial] using h4
      · simpa [issueTrialInserts, hf] using h5
      · intro hall r hr
        simp only [issueTrialInserts, hf, List.mem_cons] at hr
        rcases hr with hr | hr
        · exact ⟨r0, hr.trans s3⟩
        · refine h6 ?_ r hr
          intro j hj
          have := hall (j + 1) (by simpa using hj)
          rw [← this]; congr 1; omega
      · intro j hj m hm
        simp only [issueTrialInserts, hf]
        cases j with
        | zero => simp [hf] at hm
        | succ k =>
          refine List.mem_cons_of_mem _ ?_
          have hk : k < rest.length := by simpa using hj
          have hm2 : fault (i + 1 + k) = some m := by
            rw [← hm]; congr 1; omega
          exact h7 k hk m hm2

end StoreFacts

section SaveFacts

theorem insertOrIgnoreUser_experiments (s : Store) (u : Option String) :
    (insertOrIgnoreUser s u).1.experiments = s.experiments ∧
    (insertOrIgnoreUser s u).1.seq_experiments = s.seq_experiments ∧
    (insertOrIgnoreUser s u).1.trials = s.trials ∧
    (insertOrIgnoreUser s u).1.seq_trials = s.seq_trials := by
  cases u with
  | none => simp [insertOrIgnoreUser]
  | some v =>
    simp only [insertOrIgnoreUser]
    split_ifs <;> simp

/-- The handle on which the trial inserts of a request start: after the user
upsert and the experiment insert, both accepted. -/
theorem afterExperimentInsert (db : Db) (username : Option String)
    (summary : ExperimentSummary) :
    (dbSql (dbSql db Option.none (Stmt.insertOrIgnoreUser username)).1 Option.none
        (Stmt.insertExperiment (experimentCols username summary))).1.store.users =
      (insertOrIgnoreUser db.store username).1.users ∧
    (dbSql (dbSql db Option.none (Stmt.insertOrIgnoreUser username)).1 Option.none
        (Stmt.insertExperiment (experimentCols username summary))).1.store.experiments =
      db.store.experiments ++ [⟨experimentCols username summary,
        nextRowid db.store.seq_experiments (db.store.experiments.map (·.id))⟩] ∧
    (dbSql (dbSql db Option.none (Stmt.insertOrIgnoreUser username)).1 Option.none
        (Stmt.insertExperiment (experimentCols username summary))).1.store.trials =
      db.store.trials := by
  obtain ⟨e1, e2, e3, -⟩ := insertOrIgnoreUser_experiments db.store username
  simp [dbSql, execStmt, insertExperiment, e1, e2, e3]

/-- The run of the handler on a request that passes validation when neither the
user upsert nor the experiment insert rejects. -/
theorem saveExperiment_run (db : Db) (username : Option String)
    (trials : List TrialRecord) (summary : ExperimentSummary) (f : Faults)
    (hu : f.userUpsert = Option.none) (he : f.experimentInsert = Option.none) :
    ∃ newRows : List TrialRow,
      (saveExperiment db (wellFormed username trials summary) f).db.store.users =
        (insertOrIgnoreUser db.store username).1.users ∧
      (saveExperiment db (wellFormed username trials summary) f).db.store.experiments =
        db.store.experiments ++ [⟨experimentCols username summary,
          nextRowid db.store.seq_experiments (db.store.experiments.map (·.id))⟩] ∧
      (saveExperiment db (wellFormed username trials summary) f).db.store.trials =
        db.store.trials ++ newRows ∧
      newRows.map (·.toTrialCols) = acceptedCols Option.none f.trialInsert 0 trials ∧
      ((∀ j, j < trials.length → f.trialInsert j = Option.none) →
        (saveExperiment db (wellFormed username trials summary) f).response =
          ⟨201, .saved true Option.none⟩) ∧
      ((∃ j, j < trials.length ∧ f.trialInsert j ≠ Option.none) →
        (saveExperiment db (wellFormed username trials summary) f).response = saveFailed) := by
  obtain ⟨a1, a2, a3⟩ := afterExperimentInsert db username summary
  obtain ⟨rows, h1, h2, h3, h4, -, h6, h7⟩ := issueTrialInserts_spec Option.none
    f.trialInsert trials
    (dbSql (dbSql db Option.none (Stmt.insertOrIgnoreUser username)).1 Option.none
      (Stmt.insertExperiment (experimentCols username summary))).1 0
  have hsave : saveExperiment db (wellFormed username trials summary) f =
      (match promiseAll (issueTrialInserts Option.none f.trialInsert
          (dbSql (dbSql db Option.none (Stmt.insertOrIgnoreUser username)).1 Option.none
            (Stmt.insertExperiment (experimentCols username summary))).1 0 trials).2 with
        | .error msg => catchSave (issueTrialInserts Option.none f.trialInsert
          (dbSql (dbSql db Option.none (Stmt.insertOrIgnoreUser username)).1 Option.none
            (Stmt.insertExperiment (experimentCols username summary))).1 0 trials).1 msg
        | .ok _ => ⟨(issueTrialInserts Option.none f.trialInsert
          (dbSql (dbSql db Option.none (Stmt.insertOrIgnoreUser username)).1 Option.none
            (Stmt.insertExperiment (experimentCols username summary))).1 0 trials).1,
            ⟨201, .saved true Option.none⟩, []⟩) := by
    simp [saveExperiment, wellFormed, dbSql, hu, he, RunResult.lastInsertRowid]
  have hdb : (saveExperiment db (wellFormed username trials summary) f).db =
      (issueTrialInserts Option.none f.trialInsert
          (dbSql (dbSql db Option.none (Stmt.insertOrIgnoreUser username)).1 Option.none
            (Stmt.insertExperiment (experimentCols username summary))).1 0 trials).1 := by
    rw [hsave]; split <;> simp [catchSave]
  refine ⟨rows, ?_, ?_, ?_, h2, ?_, ?_⟩
  · rw [hdb, h3, a1]
  · rw [hdb, h4, a2]
  · rw [hdb, h1, a3]
  · intro hall
    obtain ⟨vs, hvs⟩ := promiseAll_ok_of_all_ok _ (h6 (by simpa using hall))
    rw [hsave, hvs]
  · rintro ⟨j, hj, hne⟩
    obtain ⟨msg, hmsg⟩ := Option.ne_none_iff_exists'.mp hne
    obtain ⟨m, hm⟩ := promiseAll_error_of_mem _ msg (h7 j hj msg (by simpa using hmsg))
    rw [hsave, hm]; simp [catchSave]

end SaveFacts

section ResponseFacts

theorem acceptedCols_no_fault (eid : Option Nat) (fault : Nat → Option String)
    (trials : List TrialRecord) : ∀ i : Nat,
    (∀ j, j < trials.length → fault (i + j) = Option.none) →
    acceptedCols eid fault i trials = trials.map (trialCols eid) := by
  induction trials with
  | nil => intro i _; simp [acceptedCols]
  | cons t rest ih =>
    intro i h
    have h0 : fault i = Option.none := by simpa using h 0 (by simp)
    have hrest : ∀ j, j < rest.length → fault (i + 1 + j) = Option.none := by
      intro j hj
      have := h (j + 1) (by simpa using hj)
      rw [← this]; congr 1; omega
    have := ih (i + 1) hrest
    simp only [acceptedCols] at this ⊢
    simp [List.enumFrom, h0, this]

theorem acceptedCols_mem (eid : Option Nat) (fault : Nat → Option String)
    (trials : List TrialRecord) : ∀ (i j : Nat) (hj : j < trials.length),
    fault (i + j) = Option.none →
    trialCols eid (trials.get ⟨j, hj⟩) ∈ acceptedCols eid fault i trials := by
  induction trials with
  | nil => intro i j hj; simp at hj
  | cons t rest ih =>
    intro i j hj hf
    cases j with
    | zero =>
      have h0 : fault i = Option.none := by simpa using hf
      simp [acceptedCols, List.enumFrom, h0]
    | succ k =>
      have hk : k < rest.length := by simpa using hj
      have hf2 : fault (i + 1 + k) = Option.none := by
        rw [← hf]; congr 1; omega
      have := ih (i + 1) k hk hf2
      simp only [acceptedCols, List.enumFrom] at this ⊢
      rw [List.filter_cons]
      split
      · exact List.mem_map.mpr (by
          obtain ⟨p, hp, hpe⟩ := List.mem_map.mp this
          exact ⟨p, List.mem_cons_of_mem _ hp, by simpa using hpe⟩)
      · simpa using this

theorem anyCallFails_eq_false (f : Faults) (k : Nat) :
    anyCallFails f k = false ↔
      f.userUpsert = Option.none ∧ f.experimentInsert = Option.none ∧
        ∀ j, j < k → f.trialInsert j = Option.none := by
  simp [anyCallFails, List.any_eq_true, and_assoc]

/-- The response of the handler on a request that passes validation. -/
theorem saveExperiment_response (db : Db) (username : Option String)
    (trials : List TrialRecord) (summary : ExperimentSummary) (f : Faults) :
    (saveExperiment db (wellFormed username trials summary) f).response =
      if anyCallFails f trials.length then saveFailed
      else ⟨201, .saved true Option.none⟩ := by
  cases hu : f.userUpsert with
  | some msg => simp [saveExperiment, wellFormed, dbSql, hu, catchSave, anyCallFails]
  | none =>
    cases he : f.experimentInsert with
    | some msg => simp [saveExperiment, wellFormed, dbSql, hu, he, catchSave, anyCallFails]
    | none =>
      obtain ⟨rows, -, -, -, -, hok, hfail⟩ :=
        saveExperiment_run db username trials summary f hu he
      by_cases hall : ∀ j, j < trials.length → f.trialInsert j = Option.none
      · have hfalse : anyCallFails f trials.length = false :=
          (anyCallFails_eq_false f _).mpr ⟨hu, he, hall⟩
        rw [hok hall, hfalse]; simp
      · have htrue : anyCallFails f trials.length = true := by
          cases h : anyCallFails f trials.length with
          | true => rfl
          | false => exact absurd ((anyCallFails_eq_false f _).mp h).2.2 hall
        have hex : ∃ j, j < trials.length ∧ f.trialInsert j ≠ Option.none := by
          push_neg at hall
          exact hall
        rw [hfail hex, htrue]; simp

end ResponseFacts

/-! ## Claims about `POST /api/save-experiment` -/

/-- What a save on which no store call fails writes, for every request that
passes validation: one Experiment row with a fresh generated id and one Trial row
per trial record, each with `experiment_id` NULL, since the handler takes the id
from a property that the result of the insert does not have; the response is 201
without an `experimentId`. -/
theorem save_without_failure (db : Db) (username : Option String)
    (trials : List TrialRecord) (summary : ExperimentSummary) :
    ∃ (e : ExperimentRow) (newTrials : List TrialRow),
      (saveExperiment db (wellFormed username trials summary) Faults.none).db.store.experiments
        = db.store.experiments ++ [e] ∧
      e.id ∉ db.store.experiments.map (·.id) ∧
      (saveExperiment db (wellFormed username trials summary) Faults.none).db.store.trials
        = db.store.trials ++ newTrials ∧
      newTrials.length = trials.length ∧
      newTrials.map (·.toTrialCols) = trials.map (trialCols Option.none) ∧
      (∀ t ∈ newTrials, t.experiment_id = Option.none) ∧
      (saveExperiment db (wellFormed username trials summary) Faults.none).response
        = ⟨201, .saved true Option.none⟩ := by
  obtain ⟨rows, -, h2, h3, h4, hok, -⟩ :=
    saveExperiment_run db username trials summary Faults.none rfl rfl
  have hcols := acceptedCols_no_fault Option.none Faults.none.trialInsert trials 0
    (fun _ _ => rfl)
  rw [hcols] at h4
  refine ⟨_, rows, h2, nextRowid_fresh _ _, h3, ?_, h4, ?_, hok (fun _ _ => rfl)⟩
  · have := congrArg List.length h4
    simpa using this
  · intro t ht
    have hmem : t.toTrialCols ∈ rows.map (·.toTrialCols) := List.mem_map_of_mem _ ht
    rw [h4] at hmem
    obtain ⟨r, -, hr⟩ := List.mem_map.mp hmem
    rw [← hr]; rfl

/-- C1 (the code at a request with two trial records on the fresh store, no store
call failing): the save is answered 201 and appends one Experiment row, with
generated id 1, and two Trial rows; but `result.lastInsertRowid` is `undefined`,
so both Trial rows have `experiment_id` NULL, none references the new
experiment, and the response body carries no `experimentId`. -/
theorem C1_trial_rows_lack_the_generated_id :
    (saveExperiment Db.empty (wellFormed (some "ann") [trialA, trialB] analogShown)
      Faults.none).response = ⟨201, .saved true Option.none⟩ ∧
    (saveExperiment Db.empty (wellFormed (some "ann") [trialA, trialB] analogShown)
      Faults.none).db.store.experiments.map (·.id) = [1] ∧
    (saveExperiment Db.empty (wellFormed (some "ann") [trialA, trialB] analogShown)
      Faults.none).db.store.trials.map (·.experiment_id) = [Option.none, Option.none] ∧
    ¬ ∃ t ∈ (saveExperiment Db.empty (wellFormed (some "ann") [trialA, trialB] analogShown)
      Faults.none).db.store.trials, t.experiment_id = some 1 := by
  decide

/-- C4: when `experimentData` or `summary` is absent, whatever the rest of the
request and the behaviour of the store, the response is 400 with body
`error: 'Missing experimentData or summary'`, no statement is issued, and the
store (users, experiments, trials) is unchanged. -/
theorem C4_missing_field_is_rejected_without_store_access (db : Db) (body : RequestBody)
    (f : Faults) (h : body.experimentData = Option.none ∨ body.summary = Option.none) :
    (saveExperiment db body f).response = ⟨400, .error "Missing experimentData or summary"⟩ ∧
    (saveExperiment db body f).db.issued = db.issued ∧
    (saveExperiment db body f).db.store = db.store ∧
    (saveExperiment db body f).db.store.users = db.store.users ∧
    (saveExperiment db body f).db.store.experiments = db.store.experiments ∧
    (saveExperiment db body f).db.store.trials = db.store.trials := by
  have hrun : saveExperiment db body f = ⟨db, badRequest, []⟩ := by
    rcases h with h | h
    · simp [saveExperiment, h]
    · cases hd : body.experimentData <;> simp [saveExperiment, h, hd]
  rw [hrun]
  exact ⟨rfl, rfl, rfl, rfl, rfl, rfl⟩

/-- C5: on a request that passes validation and is answered 201, the Experiment
row appended by the request has username 'Anonymous' when the request's username
is absent or empty, and has the request's username unchanged when it is a
non-empty string. -/
theorem C5_stored_username_is_coerced (db : Db) (username : Option String)
    (trials : List TrialRecord) (summary : ExperimentSummary) (f : Faults)
    (h : (saveExperiment db (wellFormed username trials summary) f).response.status = 201) :
    ∃ e : ExperimentRow,
      (saveExperiment db (wellFormed username trials summary) f).db.store.experiments
        = db.store.experiments ++ [e] ∧
      (username = Option.none ∨ username = some "" → e.username = some "Anonymous") ∧
      (∀ u : String, username = some u → u ≠ "" → e.username = some u) := by
  have hresp := saveExperiment_response db username trials summary f
  cases hany : anyCallFails f trials.length with
  | true =>
    rw [hany] at hresp
    rw [hresp] at h
    simp [saveFailed] at h
  | false =>
    obtain ⟨hu, he, -⟩ := (anyCallFails_eq_false f _).mp hany
    obtain ⟨rows, -, h2, -, -, -, -⟩ := saveExperiment_run db username trials summary f hu he
    refine ⟨_, h2, ?_, ?_⟩
    · rintro (rfl | rfl) <;> simp [experimentCols, usernameOrAnonymous]
    · intro u hu1 hu2
      subst hu1
      simp [experimentCols, usernameOrAnonymous, hu2]

/-- C6: on a request that passes validation, the response is 500 with body exactly
`error: 'Failed to save experiment data'` as soon as some store call fails (the
user upsert, the experiment insert or one of the trial inserts), the same for
every error message of the store, and it is 201 (with `success` true and the
`experimentId` the handler read, which is `undefined`) exactly when no store
call fails. -/
theorem C6_any_store_failure_gives_generic_500 (db : Db) (username : Option String)
    (trials : List TrialRecord) (summary : ExperimentSummary) (f : Faults) :
    (saveExperiment db (wellFormed username trials summary) f).response =
      (if f.userUpsert.isSome || f.experimentInsert.isSome ||
          (List.range trials.length).any (fun j => (f.trialInsert j).isSome)
       then ⟨500, .error "Failed to save experiment data"⟩
       else ⟨201, .saved true Option.none⟩) ∧
    ((saveExperiment db (wellFormed username trials summary) f).response.status = 201 ↔
      (f.userUpsert = Option.none ∧ f.experimentInsert = Option.none ∧
        ∀ j, j < trials.length → f.trialInsert j = Option.none)) := by
  have hresp := saveExperiment_response db username trials summary f
  refine ⟨hresp, ?_⟩
  rw [hresp, ← anyCallFails_eq_false f trials.length]
  cases anyCallFails f trials.length <;> simp [saveFailed]

/-- C7: on a request that passes validation, when the user upsert and the
experiment insert succeed and at least one trial insert fails, the response is
500 and nothing is undone: the store afterwards holds the new Experiment row and,
appended to the trials, exactly the rows of the trial inserts that succeeded
(bound with the `undefined` experiment id that the handler read), so it differs
from the store before the request. -/
theorem C7_failed_trial_insert_leaves_written_rows (db : Db) (username : Option String)
    (trials : List TrialRecord) (summary : ExperimentSummary) (f : Faults)
    (hu : f.userUpsert = Option.none) (he : f.experimentInsert = Option.none)
    (hfail : ∃ j, j < trials.length ∧ f.trialInsert j ≠ Option.none) :
    (saveExperiment db (wellFormed username trials summary) f).response = saveFailed ∧
    (saveExperiment db (wellFormed username trials summary) f).response.status = 500 ∧
    ∃ (e : ExperimentRow) (newTrials : List TrialRow),
      e.toExperimentCols = experimentCols username summary ∧
      e.id ∉ db.store.experiments.map (·.id) ∧
      (saveExperiment db (wellFormed username trials summary) f).db.store.experiments
        = db.store.experiments ++ [e] ∧
      (saveExperiment db (wellFormed username trials summary) f).db.store.trials
        = db.store.trials ++ newTrials ∧
      newTrials.map (·.toTrialCols) = acceptedCols Option.none f.trialInsert 0 trials ∧
      (∀ (j : Nat) (hj : j < trials.length), f.trialInsert j = Option.none →
        ∃ t ∈ newTrials, t.toTrialCols = trialCols Option.none (trials.get ⟨j, hj⟩)) ∧
      (saveExperiment db (wellFormed username trials summary) f).db.store ≠ db.store := by
  obtain ⟨rows, -, h2, h3, h4, -, hbad⟩ :=
    saveExperiment_run db username trials summary f hu he
  refine ⟨hbad hfail, by rw [hbad hfail]; rfl, _, rows, rfl, nextRowid_fresh _ _, h2, h3, h4,
    ?_, ?_⟩
  · intro j hj hnone
    have hmem := acceptedCols_mem Option.none
      f.trialInsert trials 0 j hj (by simpa using hnone)
    rw [← h4] at hmem
    obtain ⟨t, ht, hte⟩ := List.mem_map.mp hmem
    exact ⟨t, ht, hte⟩
  · intro heq
    have hlen := congrArg (fun s => s.experiments.length) heq
    simp only [h2] at hlen
    simp at hlen

/-! ## Users and usernames -/

section UserFacts

/-- What one run of the handler, whatever the request and the store behaviour,
does to the users and experiments relations. -/
theorem saveExperiment_users_experiments (db : Db) (body : RequestBody) (f : Faults) :
    ((saveExperiment db body f).db.store.users = db.store.users ∨
      (saveExperiment db body f).db.store.users =
        (insertOrIgnoreUser db.store body.username).1.users) ∧
    ((saveExperiment db body f).db.store.experiments = db.store.experiments ∨
      ∃ (summary : ExperimentSummary) (id : Nat),
        (saveExperiment db body f).db.store.experiments =
          db.store.experiments ++ [⟨experimentCols body.username summary, id⟩]) := by
  obtain ⟨username, data, summ⟩ := body
  cases data with
  | none => simp [saveExperiment]
  | some trials =>
    cases summ with
    | none => simp [saveExperiment]
    | some summary =>
      cases hu : f.userUpsert with
      | some msg => simp [saveExperiment, dbSql, hu, catchSave]
      | none =>
        cases he : f.experimentInsert with
        | some msg =>
          obtain ⟨e1, -, -, -⟩ := insertOrIgnoreUser_experiments db.store username
          simp [saveExperiment, dbSql, hu, he, catchSave, execStmt, e1]
        | none =>
          obtain ⟨rows, h1, h2, -, -, -, -⟩ :=
            saveExperiment_run db username trials summary f hu he
          exact ⟨Or.inr h1, Or.inr ⟨summary, _, h2⟩⟩

theorem insertOrIgnoreUser_nodup (s : Store) (u : Option String)
    (h : (s.users.filterMap (·.username)).Nodup) :
    ((insertOrIgnoreUser s u).1.users.filterMap (·.username)).Nodup := by
  cases u with
  | none => simpa [insertOrIgnoreUser] using h
  | some v =>
    simp only [insertOrIgnoreUser]
    split_ifs with hany
    · exact h
    · simp only [List.filterMap_append, List.filterMap_cons, List.filterMap_nil]
      refine List.Nodup.append h (List.nodup_singleton v) ?_
      intro x hx hx2
      have hxv : x = v := by simpa using hx2
      subst hxv
      apply hany
      obtain ⟨r, hr, hrx⟩ := List.mem_filterMap.mp hx
      exact List.any_eq_true.mpr ⟨r, hr, by simp [hrx]⟩

/-- On every reachable handle the usernames that are strings are pairwise
different: the `UNIQUE` column never holds the same string twice. -/
theorem reachable_usernames_nodup (db : Db) (h : Reachable db) :
    (db.store.users.filterMap (·.username)).Nodup := by
  induction h with
  | start => simp [Db.empty, Store.empty]
  | post db body f _ ih =>
    rcases (saveExperiment_users_experiments db body f).1 with hu | hu
    · rw [hu]; exact ih
    · rw [hu]; exact insertOrIgnoreUser_nodup _ _ ih

/-- On every reachable handle each Experiment row holds the values that the
handler binds from some username and summary. -/
theorem reachable_experiments_bound (db : Db) (h : Reachable db) :
    ∀ e ∈ db.store.experiments, ∃ (u : Option String) (summary : ExperimentSummary),
      e.toExperimentCols = experimentCols u summary := by
  induction h with
  | start => intro e he; simp [Db.empty, Store.empty] at he
  | post db body f _ ih =>
    intro e he
    rcases (saveExperiment_users_experiments db body f).2 with hx | ⟨summary, id, hx⟩
    · rw [hx] at he; exact ih e he
    · rw [hx] at he
      rcases List.mem_append.mp he with h1 | h1
      · exact ih e h1
      · have : e = ⟨experimentCols body.username summary, id⟩ := by simpa using h1
        exact ⟨body.username, summary, by rw [this]⟩

/-- For every username that is a string (the empty one included), a reachable
handle holds at most one User row with that username. -/
theorem reachable_string_username_at_most_once (db : Db) (h : Reachable db) (u : String) :
    (db.store.users.filter (fun r => r.username == some u)).length ≤ 1 := by
  have hnd := reachable_usernames_nodup db h
  have hcount : (db.store.users.filter (fun r => r.username == some u)).length =
      (db.store.users.filterMap (·.username)).count u := by
    generalize db.store.users = l
    induction l with
    | nil => simp
    | cons r rest ih =>
      obtain ⟨id, name⟩ := r
      cases name with
      | none => simpa using ih
      | some v =>
        by_cases hv : v = u
        · subst hv; simp [List.filter_cons, ih]
        · have hv2 : ¬ (u = v) := fun h => hv h.symm
          simp [List.filter_cons, hv, ih, List.count_cons, hv2]
  rw [hcount]
  exact List.nodup_iff_count_le_one.mp hnd u

/-- When the username is a non-empty string, a save answered 201 leaves a User row
whose username is the one stored on the new Experiment row. -/
theorem nonempty_username_has_user_row (db : Db) (u : String) (hne : u ≠ "")
    (trials : List TrialRecord) (summary : ExperimentSummary) (f : Faults)
    (h : (saveExperiment db (wellFormed (some u) trials summary) f).response.status = 201) :
    ∃ e : ExperimentRow,
      (saveExperiment db (wellFormed (some u) trials summary) f).db.store.experiments
        = db.store.experiments ++ [e] ∧
      e.username = some u ∧
      ∃ r ∈ (saveExperiment db (wellFormed (some u) trials summary) f).db.store.users,
        r.username = e.username := by
  have hresp := saveExperiment_response db (some u) trials summary f
  cases hany : anyCallFails f trials.length with
  | true =>
    rw [hany] at hresp
    rw [hresp] at h
    simp [saveFailed] at h
  | false =>
    obtain ⟨hu, he, -⟩ := (anyCallFails_eq_false f _).mp hany
    obtain ⟨rows, h1, h2, -, -, -, -⟩ := saveExperiment_run db (some u) trials summary f hu he
    have hname : (experimentCols (some u) summary).username = some u := by
      simp [experimentCols, usernameOrAnonymous, hne]
    refine ⟨_, h2, hname, ?_⟩
    rw [h1]
    simp only [insertOrIgnoreUser]
    split_ifs with hex
    · obtain ⟨r, hr, hru⟩ := List.any_eq_true.mp hex
      exact ⟨r, hr, by rw [hname]; simpa using hru⟩
    · exact ⟨⟨nextRowid db.store.seq_users (db.store.users.map (·.id)), some u⟩, by simp,
        by rw [hname]⟩

end UserFacts

/-- C2 (the code at a request with an empty username, on the fresh store): the save
is answered 201 and stores 'Anonymous' on the Experiment row, while the user
upsert, which binds the raw username, has written a User row with the empty
username; no User row carries the username of the Experiment row. -/
theorem C2_empty_username_leaves_no_matching_user_row :
    (saveExperiment Db.empty emptyUsername Faults.none).response.status = 201 ∧
    (saveExperiment Db.empty emptyUsername Faults.none).db.store.experiments.map (·.username)
      = [some "Anonymous"] ∧
    (saveExperiment Db.empty emptyUsername Faults.none).db.store.users.map (·.username)
      = [some ""] ∧
    (saveExperiment Db.empty absentUsername Faults.none).db.store.experiments.map (·.username)
      = [some "Anonymous"] ∧
    (saveExperiment Db.empty absentUsername Faults.none).db.store.users.map (·.username)
      = [Option.none] ∧
    ¬ ∃ r ∈ (saveExperiment Db.empty emptyUsername Faults.none).db.store.users,
        ∃ e ∈ (saveExperiment Db.empty emptyUsername Faults.none).db.store.experiments,
          r.username = e.username := by
  decide

/-- C3 (the code at two requests without a username, from the fresh store): both
saves are answered 201, the first leaves one User row and the second adds another
one, so that two User rows stand for the same absent username. -/
theorem C3_absent_username_twice_gives_two_user_rows :
    Reachable (saveExperiment (saveExperiment Db.empty absentUsername Faults.none).db
      absentUsername Faults.none).db ∧
    (saveExperiment Db.empty absentUsername Faults.none).response.status = 201 ∧
    (saveExperiment (saveExperiment Db.empty absentUsername Faults.none).db
      absentUsername Faults.none).response.status = 201 ∧
    (saveExperiment Db.empty absentUsername Faults.none).db.store.users.length = 1 ∧
    (saveExperiment (saveExperiment Db.empty absentUsername Faults.none).db
      absentUsername Faults.none).db.store.users = [⟨1, Option.none⟩, ⟨2, Option.none⟩] :=
  ⟨Reachable.post _ _ _ (Reachable.post _ _ _ Reachable.start), by decide, by decide,
    by decide, by decide⟩

/-! ## Facts about the aggregates -/

section AggregateFacts

theorem foldl_avgStep (vals : List (Option ℚ)) : ∀ p : AvgCtx,
    vals.foldl avgStep p =
      ⟨p.rSum + (vals.filterMap id).sum, p.cnt + (vals.filterMap id).length⟩ := by
  induction vals with
  | nil => intro p; simp
  | cons v rest ih =>
    intro p
    cases v with
    | none => simpa [avgStep] using ih p
    | some q =>
      simp only [List.foldl_cons, avgStep, ih, List.filterMap_cons, id, List.sum_cons,
        List.length_cons]
      congr 1
      · ring
      · omega

/-- The aggregate `AVG` is the arithmetic mean of the non-`NULL` values. -/
theorem sqlAvg_eq_mean (vals : List (Option ℚ)) :
    sqlAvg vals = mean (vals.filterMap id) := by
  simp only [sqlAvg, foldl_avgStep, avgFinalize, mean, zero_add]
  by_cases h : (vals.filterMap id).length = 0
  · simp [h]
  · have hpos : (vals.filterMap id).length > 0 := Nat.pos_of_ne_zero h
    simp [h, hpos]

theorem sqlAvg_column {α : Type} (rows : List α) (col : α → Option ℚ) :
    sqlAvg (rows.map col) = mean (rows.filterMap col) := by
  rw [sqlAvg_eq_mean, List.filterMap_map]
  rfl

theorem sqlGtZero_iff (v : Option ℚ) :
    sqlGtZero v = true ↔ ∃ q : ℚ, v = some q ∧ 0 < q := by
  cases v with
  | none => simp [sqlGtZero]
  | some q => simp [sqlGtZero]

theorem filterMap_length_of_isSome {α : Type} (rows : List α) (col : α → Option ℚ)
    (h : ∀ r ∈ rows, ∃ q, col r = some q) : (rows.filterMap col).length = rows.length := by
  induction rows with
  | nil => rfl
  | cons r rest ih =>
    obtain ⟨q, hq⟩ := h r (List.mem_cons_self _ _)
    have := ih (fun x hx => h x (List.mem_cons_of_mem _ hx))
    simp [List.filterMap_cons, hq, this]

theorem filter_gtZero_counted (rows : List ExperimentRow) (col : ExperimentRow → Option ℚ) :
    ((rows.filter (fun r => sqlGtZero (col r))).filterMap col).length =
      (rows.filter (fun r => sqlGtZero (col r))).length := by
  apply filterMap_length_of_isSome
  intro r hr
  have := (List.mem_filter.mp hr).2
  obtain ⟨q, hq, -⟩ := (sqlGtZero_iff _).mp this
  exact ⟨q, hq⟩

theorem groupKeys_mem (rows : List ExperimentRow) (k : Option Int) :
    k ∈ groupKeys rows ↔ ∃ r ∈ rows, r.show_numbers = k := by
  unfold groupKeys
  rw [(List.perm_insertionSort _ _).mem_iff, List.mem_dedup, List.mem_map]

theorem groupKeys_nodup (rows : List ExperimentRow) : (groupKeys rows).Nodup := by
  unfold groupKeys
  rw [(List.perm_insertionSort _ _).nodup_iff]
  exact List.nodup_dedup _

theorem numbersEffectQuery_keys (s : Store) :
    (numbersEffectQuery s).map (·.show_numbers) =
      groupKeys (s.experiments.filter numbersEffectWhere) := by
  simp [numbersEffectQuery, List.map_map, Function.comp_def]

theorem numbersEffectWhere_iff (r : ExperimentRow) :
    numbersEffectWhere r = true ↔
      (∃ q : ℚ, r.analog_avg_reaction = some q ∧ 0 < q) ∧
      (r.clock_type_selection = some "analog" ∨ r.clock_type_selection = some "mixed") := by
  unfold numbersEffectWhere
  rw [Bool.and_eq_true, Bool.or_eq_true, sqlGtZero_iff]
  cases r.clock_type_selection <;> simp [sqlEqText]

theorem nodup_two_values_length_le (l : List (Option Int)) (hnd : l.Nodup)
    (h : ∀ k ∈ l, k = some 0 ∨ k = some 1) : l.length ≤ 2 := by
  have hsub : l.toFinset ⊆ ({some 0, some 1} : Finset (Option Int)) := by
    intro k hk
    rcases h k (List.mem_toFinset.mp hk) with hk | hk <;> simp [hk]
  have hcard := Finset.card_le_card hsub
  rw [List.toFinset_card_of_nodup hnd] at hcard
  exact le_trans hcard (by decide)

end AggregateFacts

/-! ## Claims about `GET /api/statistics` -/

/-- C8: for every state of the experiments relation, the clockComparison result
has exactly two rows, tagged 'digital' then 'analog', and it is what the handler
returns with status 200 when no query fails. A row qualifies for the digital
average exactly when its `digital_avg_reaction` is a number greater than 0 (for
the analog one, `analog_avg_reaction`); the digital `avg_reaction` and
`avg_accuracy` are the means of `digital_avg_reaction` and of the (non-NULL)
`digital_accuracy` values over exactly the qualifying rows, every qualifying row
counting in the reaction mean, likewise for analog; a mean over no value is
null. -/
theorem C8_clockComparison_two_rows_over_exercised_rows (s : Store) :
    ∃ d a : ClockRow,
      clockComparisonQuery s = [d, a] ∧
      (∃ o n, getStatistics s StatFaults.none = ⟨200, .stats o [d, a] n⟩) ∧
      d.clock_type = "digital" ∧ a.clock_type = "analog" ∧
      (∀ v : Option ℚ, sqlGtZero v = true ↔ ∃ q : ℚ, v = some q ∧ 0 < q) ∧
      d.avg_reaction = mean ((s.experiments.filter
        (fun r => sqlGtZero r.digital_avg_reaction)).filterMap (·.digital_avg_reaction)) ∧
      d.avg_accuracy = mean ((s.experiments.filter
        (fun r => sqlGtZero r.digital_avg_reaction)).filterMap (·.digital_accuracy)) ∧
      a.avg_reaction = mean ((s.experiments.filter
        (fun r => sqlGtZero r.analog_avg_reaction)).filterMap (·.analog_avg_reaction)) ∧
      a.avg_accuracy = mean ((s.experiments.filter
        (fun r => sqlGtZero r.analog_avg_reaction)).filterMap (·.analog_accuracy)) ∧
      ((s.experiments.filter (fun r => sqlGtZero r.digital_avg_reaction)).filterMap
          (·.digital_avg_reaction)).length =
        (s.experiments.filter (fun r => sqlGtZero r.digital_avg_reaction)).length ∧
      ((s.experiments.filter (fun r => sqlGtZero r.analog_avg_reaction)).filterMap
          (·.analog_avg_reaction)).length =
        (s.experiments.filter (fun r => sqlGtZero r.analog_avg_reaction)).length ∧
      mean [] = Option.none ∧
      clockComparisonQuery Store.empty =
        [⟨"digital", Option.none, Option.none⟩, ⟨"analog", Option.none, Option.none⟩] := by
  refine ⟨_, _, rfl, ⟨_, _, rfl⟩, rfl, rfl, sqlGtZero_iff, sqlAvg_column _ _, sqlAvg_column _ _,
    sqlAvg_column _ _, sqlAvg_column _ _, filter_gtZero_counted _ _, filter_gtZero_counted _ _,
    rfl, ?_⟩
  simp [clockComparisonQuery, digitalArm, analogArm, Store.empty, sqlAvg, avgFinalize]

/-- C10: for every state of the experiments relation, the first query yields a
single row, which the handler returns as `overall` with status 200 when no query
fails; its `total_experiments` is the number of Experiment rows and its
`avg_accuracy` and `avg_reaction_time` are the means of the (non-NULL)
`overall_accuracy` and `avg_reaction_time` values of all Experiment rows; on the
empty store the row is count 0 with both averages null, not zero. -/
theorem C10_overall_single_row (s : Store) :
    ∃ row : OverallRow,
      overallQuery s = [row] ∧
      (∃ c n, getStatistics s StatFaults.none = ⟨200, .stats (some row) c n⟩) ∧
      row.total_experiments = s.experiments.length ∧
      row.avg_accuracy = mean (s.experiments.filterMap (·.overall_accuracy)) ∧
      row.avg_reaction_time = mean (s.experiments.filterMap (·.avg_reaction_time)) ∧
      overallQuery Store.empty = [⟨0, Option.none, Option.none⟩] := by
  refine ⟨_, rfl, ⟨_, _, rfl⟩, rfl, sqlAvg_column _ _, sqlAvg_column _ _, ?_⟩
  simp [overallQuery, Store.empty, sqlAvg, avgFinalize]

/-- C9: on every store reached from the fresh one by save requests, the
numbersEffect result (returned by the handler with status 200 when no query
fails) has exactly one row per distinct `show_numbers` value occurring among the
qualifying Experiment rows, those whose `analog_avg_reaction` is a number greater
than 0 and whose `clock_type_selection` is 'analog' or 'mixed'; each such value
is 0 or 1, so there are at most two rows; and each row's `avg_reaction` and
`avg_accuracy` are the means of `analog_avg_reaction` and `analog_accuracy` over
the qualifying rows of its group, every row of the group counting. -/
theorem C9_numbersEffect_one_row_per_show_numbers (db : Db) (h : Reachable db) :
    (∃ o c, getStatistics db.store StatFaults.none =
      ⟨200, .stats o c (numbersEffectQuery db.store)⟩) ∧
    ((numbersEffectQuery db.store).map (·.show_numbers)).Nodup ∧
    (∀ k : Option Int, k ∈ (numbersEffectQuery db.store).map (·.show_numbers) ↔
      ∃ r ∈ db.store.experiments, numbersEffectWhere r = true ∧ r.show_numbers = k) ∧
    (∀ r : ExperimentRow, numbersEffectWhere r = true ↔
      (∃ q : ℚ, r.analog_avg_reaction = some q ∧ 0 < q) ∧
      (r.clock_type_selection = some "analog" ∨ r.clock_type_selection = some "mixed")) ∧
    (∀ row ∈ numbersEffectQuery db.store,
      row.show_numbers = some 0 ∨ row.show_numbers = some 1) ∧
    (numbersEffectQuery db.store).length ≤ 2 ∧
    (∀ row ∈ numbersEffectQuery db.store,
      row.avg_reaction = mean (((db.store.experiments.filter numbersEffectWhere).filter
        (fun r => r.show_numbers == row.show_numbers)).filterMap (·.analog_avg_reaction)) ∧
      row.avg_accuracy = mean (((db.store.experiments.filter numbersEffectWhere).filter
        (fun r => r.show_numbers == row.show_numbers)).filterMap (·.analog_accuracy)) ∧
      (((db.store.experiments.filter numbersEffectWhere).filter
        (fun r => r.show_numbers == row.show_numbers)).filterMap
          (·.analog_avg_reaction)).length =
        ((db.store.experiments.filter numbersEffectWhere).filter
          (fun r => r.show_numbers == row.show_numbers)).length ∧
      (((db.store.experiments.filter numbersEffectWhere).filter
        (fun r => r.show_numbers == row.show_numbers)).filterMap
          (·.analog_accuracy)).length =
        ((db.store.experiments.filter numbersEffectWhere).filter
          (fun r => r.show_numbers == row.show_numbers)).length) := by
  have hbound := reachable_experiments_bound db h
  have hkeys : ∀ k : Option Int, k ∈ (numbersEffectQuery db.store).map (·.show_numbers) ↔
      ∃ r ∈ db.store.experiments, numbersEffectWhere r = true ∧ r.show_numbers = k := by
    intro k
    rw [numbersEffectQuery_keys, groupKeys_mem]
    constructor
    · rintro ⟨r, hr, hk⟩
      exact ⟨r, (List.mem_filter.mp hr).1, (List.mem_filter.mp hr).2, hk⟩
    · rintro ⟨r, hr, hw, hk⟩
      exact ⟨r, List.mem_filter.mpr ⟨hr, hw⟩, hk⟩
  have hbit : ∀ row ∈ numbersEffectQuery db.store,
      row.show_numbers = some 0 ∨ row.show_numbers = some 1 := by
    intro row hrow
    obtain ⟨r, hr, -, hk⟩ := (hkeys row.show_numbers).mp (List.mem_map_of_mem _ hrow)
    obtain ⟨u, summary, hcols⟩ := hbound r hr
    have hsn : r.show_numbers = some (boolToInt summary.showNumbers) := by
      show r.toExperimentCols.show_numbers = _
      rw [hcols]; rfl
    rw [← hk, hsn]
    cases summary.showNumbers <;> simp [boolToInt]
  have hnd : ((numbersEffectQuery db.store).map (·.show_numbers)).Nodup := by
    rw [numbersEffectQuery_keys]; exact groupKeys_nodup _
  refine ⟨⟨_, _, rfl⟩, hnd, hkeys, numbersEffectWhere_iff, hbit, ?_, ?_⟩
  · have := nodup_two_values_length_le _ hnd (by
      intro k hk
      obtain ⟨row, hrow, rfl⟩ := List.mem_map.mp hk
      exact hbit row hrow)
    simpa using this
  · intro row hrow
    simp only [numbersEffectQuery, List.mem_map] at hrow
    obtain ⟨k, -, rfl⟩ := hrow
    refine ⟨sqlAvg_column _ _, sqlAvg_column _ _, ?_, ?_⟩
    · apply filterMap_length_of_isSome
      intro r hr
      have hw := (List.mem_filter.mp (List.mem_filter.mp hr).1).2
      obtain ⟨⟨q, hq, -⟩, -⟩ := (numbersEffectWhere_iff r).mp hw
      exact ⟨q, hq⟩
    · apply filterMap_length_of_isSome
      intro r hr
      have hmem := (List.mem_filter.mp (List.mem_filter.mp hr).1).1
      obtain ⟨u, summary, hcols⟩ := hbound r hmem
      refine ⟨summary.analogAccuracy, ?_⟩
      show r.toExperimentCols.analog_accuracy = _
      rw [hcols]; rfl

/-! ## The claims at concrete requests -/

/-- C4 at a request without `experimentData`, sent to a store that already holds
two experiments and whose second trial insert would fail: 400, nothing issued,
nothing written. -/
theorem C4_witness_missing_experimentData :
    (missingExperimentData.experimentData = Option.none ∨
      missingExperimentData.summary = Option.none) ∧
    (saveExperiment numbersScenario missingExperimentData secondTrialFails).response
      = ⟨400, .error "Missing experimentData or summary"⟩ ∧
    (saveExperiment numbersScenario missingExperimentData secondTrialFails).db.issued
      = numbersScenario.issued ∧
    (saveExperiment numbersScenario missingExperimentData secondTrialFails).db.store
      = numbersScenario.store ∧
    (saveExperiment numbersScenario missingExperimentData secondTrialFails).db.store.users
      = numbersScenario.store.users ∧
    (saveExperiment numbersScenario missingExperimentData secondTrialFails).db.store.experiments
      = numbersScenario.store.experiments ∧
    (saveExperiment numbersScenario missingExperimentData secondTrialFails).db.store.trials
      = numbersScenario.store.trials :=
  ⟨Or.inl rfl, C4_missing_field_is_rejected_without_store_access numbersScenario
    missingExperimentData secondTrialFails (Or.inl rfl)⟩

/-- C5 at a request with the empty username on the fresh store: the save is
answered 201 and the appended Experiment row carries 'Anonymous'. -/
theorem C5_witness_empty_username :
    (saveExperiment Db.empty (wellFormed (some "") [trialA] analogShown)
      Faults.none).response.status = 201 ∧
    ∃ e : ExperimentRow,
      (saveExperiment Db.empty (wellFormed (some "") [trialA] analogShown)
        Faults.none).db.store.experiments = Db.empty.store.experiments ++ [e] ∧
      ((some "" : Option String) = Option.none ∨ (some "" : Option String) = some "" →
        e.username = some "Anonymous") ∧
      (∀ u : String, (some "" : Option String) = some u → u ≠ "" → e.username = some u) :=
  ⟨by decide, C5_stored_username_is_coerced Db.empty (some "") [trialA] analogShown
    Faults.none (by decide)⟩

/-- C6 at a request with two trials whose second trial insert fails, and at the
same request when nothing fails: 500 with the generic body, respectively 201. -/
theorem C6_witness_second_trial_fails :
    (saveExperiment Db.empty (wellFormed (some "ann") [trialA, trialB] analogShown)
      secondTrialFails).response = ⟨500, .error "Failed to save experiment data"⟩ ∧
    (saveExperiment Db.empty (wellFormed (some "ann") [trialA, trialB] analogShown)
      Faults.none).response = ⟨201, .saved true Option.none⟩ :=
  ⟨(C6_any_store_failure_gives_generic_500 Db.empty (some "ann") [trialA, trialB] analogShown
      secondTrialFails).1.trans (by decide),
   (C6_any_store_failure_gives_generic_500 Db.empty (some "ann") [trialA, trialB] analogShown
      Faults.none).1.trans (by decide)⟩

/-- C7 at a request with two trials whose second trial insert fails, on the fresh
store: the response is 500, the Experiment row and the first Trial row stay. -/
theorem C7_witness_second_trial_fails :
    (secondTrialFails.userUpsert = Option.none ∧
      secondTrialFails.experimentInsert = Option.none ∧
      ∃ j, j < [trialA, trialB].length ∧ secondTrialFails.trialInsert j ≠ Option.none) ∧
    (saveExperiment Db.empty (wellFormed (some "ann") [trialA, trialB] analogShown)
      secondTrialFails).response.status = 500 ∧
    (saveExperiment Db.empty (wellFormed (some "ann") [trialA, trialB] analogShown)
      secondTrialFails).db.store ≠ Db.empty.store ∧
    (saveExperiment Db.empty (wellFormed (some "ann") [trialA, trialB] analogShown)
      secondTrialFails).db.store.experiments
        = [⟨experimentCols (some "ann") analogShown, 1⟩] ∧
    (saveExperiment Db.empty (wellFormed (some "ann") [trialA, trialB] analogShown)
      secondTrialFails).db.store.trials = [⟨trialCols Option.none trialA, 1⟩] := by
  have hfail : ∃ j, j < [trialA, trialB].length ∧
      secondTrialFails.trialInsert j ≠ Option.none := ⟨1, by decide, by decide⟩
  obtain ⟨-, hstatus, e, rows, -, -, -, -, -, -, hne⟩ :=
    C7_failed_trial_insert_leaves_written_rows Db.empty (some "ann") [trialA, trialB]
      analogShown secondTrialFails rfl rfl hfail
  exact ⟨⟨rfl, rfl, hfail⟩, hstatus, hne, rfl, rfl⟩

/-- C8 at the store holding a digital-only run (reaction 500, accuracy 0.9, analog
reaction 0) and an analog-only run (digital reaction 0, analog reaction 600,
accuracy 0.8): the digital row averages 500 and 0.9 over one row, the analog row
600 and 0.8 over one row. -/
theorem C8_witness_two_runs :
    clockComparisonQuery comparisonScenario.store =
      [⟨"digital", some 500, some (9 / 10)⟩, ⟨"analog", some 600, some (4 / 5)⟩] := by
  obtain ⟨d, a, hq, -, hd, ha, -, h1, h2, h3, h4, -, -, -, -⟩ :=
    C8_clockComparison_two_rows_over_exercised_rows comparisonScenario.store
  have h0 : comparisonScenario.store.experiments.filter
      (fun r => sqlGtZero r.digital_avg_reaction)
        = [⟨experimentCols (some "ann") digitalOnly, 1⟩] := by
    rfl
  have h0a : comparisonScenario.store.experiments.filter
      (fun r => sqlGtZero r.analog_avg_reaction)
        = [⟨experimentCols (some "bob") analogShown, 2⟩] := by
    rfl
  rw [h0] at h1 h2
  rw [h0a] at h3 h4
  obtain ⟨dt, dr, da⟩ := d
  obtain ⟨at1, ar, aa⟩ := a
  simp only at hd ha h1 h2 h3 h4
  rw [hq, hd, ha, h1, h2, h3, h4]
  simp [mean, experimentCols, digitalOnly, analogShown]

/-- C9 at the store holding two analog-only runs with a positive analog reaction
time, one with numbers shown and one without: the store is reachable and the
numbersEffect result has two rows, one per `show_numbers` value. -/
theorem C9_witness_shown_and_hidden :
    Reachable numbersScenario ∧
    (numbersEffectQuery numbersScenario.store).length ≤ 2 ∧
    ((numbersEffectQuery numbersScenario.store).map (·.show_numbers)).Nodup ∧
    (∀ row ∈ numbersEffectQuery numbersScenario.store,
      row.show_numbers = some 0 ∨ row.show_numbers = some 1) ∧
    numbersEffectQuery numbersScenario.store =
      [⟨some 0, some 700, some 1⟩, ⟨some 1, some 600, some (4 / 5)⟩] := by
  have hreach : Reachable numbersScenario :=
    Reachable.post _ _ _ (Reachable.post _ _ _ Reachable.start)
  obtain ⟨-, hnd, -, -, hbit, hlen, -⟩ :=
    C9_numbersEffect_one_row_per_show_numbers numbersScenario hreach
  refine ⟨hreach, hlen, hnd, hbit, ?_⟩
  have hk : groupKeys (numbersScenario.store.experiments.filter numbersEffectWhere)
      = [some 0, some 1] := by decide
  have h0 : (numbersScenario.store.experiments.filter numbersEffectWhere).filter
      (fun r => r.show_numbers == some 0)
        = [⟨experimentCols (some "bob") analogHidden, 2⟩] := by
    rfl
  have h1 : (numbersScenario.store.experiments.filter numbersEffectWhere).filter
      (fun r => r.show_numbers == some 1)
        = [⟨experimentCols (some "ann") analogShown, 1⟩] := by
    rfl
  simp only [numbersEffectQuery, hk, List.map_cons, List.map_nil, h0, h1, sqlAvg_column]
  simp [mean, experimentCols, analogHidden, analogShown]

end ClockServer
